import Mathlib

/-!
Shallow embedding of the fiber scheduling core in
`src/util/fibers/detail/scheduler.cc` (namespace `util::fb2::detail`).

Fibers are identified by natural numbers (`FiberId`).  The per-thread
state (`ThreadState`) gathers the thread-local `FiberInitializer`'s
active-fiber pointer together with the single `Scheduler`'s queues and
the per-fiber fields of `FiberInterface` that the scheduling code reads
and writes.  Machine time (`chrono::steady_clock::time_point`) is
modelled as a natural number and is passed to `ProcessSleep` as an
explicit argument instead of being sampled inside the function.
Continuations (`boost::context::fiber`) are opaque tokens: the
continuation that resumes the suspended context of fiber `p` is the
token `contOf p`, and a fiber's `entry_` slot holds `some` token when a
suspended continuation is stored there and `none` when the continuation
has been moved out (the fiber is running, or the slot was consumed by a
switch).
-/

/-- Fiber kinds, from `FiberInterface::Type` (MAIN, DISPATCH, WORKER). -/
inductive FiberType where
  | MAIN : FiberType
  | DISPATCH : FiberType
  | WORKER : FiberType
deriving DecidableEq, Repr

/-- Fibers are identified by natural numbers. -/
abbrev FiberId := Nat

/-- Opaque continuation tokens standing for `boost::context::fiber` values. -/
abbrev Continuation := Nat

/-- The token naming the suspended continuation of fiber `p`. -/
def contOf (p : FiberId) : Continuation := p

/-- Per-fiber state: the fields of `FiberInterface` (and the
`is_terminating_` flag of `DispatcherImpl`) that the scheduling code in
`scheduler.cc` reads or writes. -/
structure FiberInterface where
  type_ : FiberType
  use_count_ : Nat
  terminated : Bool
  wait_queue_ : List FiberId
  tp_ : Nat
  scheduler_ : Option Nat
  entry_ : Option Continuation
  is_terminating_ : Bool
deriving DecidableEq, Repr

/-- The per-thread scheduling state: the `FiberInitializer`'s `active`
pointer, the identity of the thread's `Scheduler`, and that scheduler's
queues (`ready_queue_` is FIFO; `sleep_queue_` is kept ordered by
ascending `tp_`; `terminate_queue_` is FIFO). -/
structure ThreadState where
  active : FiberId
  this_sched : Nat
  main_cntx : FiberId
  dispatch_cntx : FiberId
  ready_queue : List FiberId
  sleep_queue : List FiberId
  terminate_queue : List FiberId
  num_worker_fibers : Nat
  fibers : FiberId → FiberInterface

/-- Pointwise update of the fiber table at one id. -/
def updateFiber (fs : FiberId → FiberInterface) (i : FiberId) (f : FiberInterface) :
    FiberId → FiberInterface :=
  fun j => if j = i then f else fs j

/-- `FiberInterface::SwitchTo` (scheduler.cc:311-323).  `prev` is the
currently active fiber; the active pointer is swapped to `this`
(the target), the target's `entry_` is moved out and resumed, and the
continuation of the context just left is stored back into
`prev->entry_` by the `resume_with` lambda. -/
def FiberInterface.SwitchTo (target : FiberId) (st : ThreadState) : ThreadState :=
  let prev := st.active
  { st with
    active := target
    fibers := fun j =>
      if j = prev then { st.fibers prev with entry_ := some (contOf prev) }
      else if j = target then { st.fibers target with entry_ := none }
      else st.fibers j }

/-- `Scheduler::Preempt` (scheduler.cc:167-178): if the ready queue is
empty, switch to the dispatcher; otherwise pop the front fiber and
switch to it. -/
def Scheduler.Preempt (st : ThreadState) : ThreadState :=
  match st.ready_queue with
  | [] => FiberInterface.SwitchTo st.dispatch_cntx st
  | fi :: rest => FiberInterface.SwitchTo fi { st with ready_queue := rest }

/-- Modelled from the spec: `Scheduler::MarkReady` is declared in the
header `scheduler.h`, which is not under `src/`; spec section 4.2 says
`mark_ready(f)` appends `f` to the ready queue. -/
def Scheduler.MarkReady (f : FiberId) (st : ThreadState) : ThreadState :=
  { st with ready_queue := st.ready_queue ++ [f] }

/-- `Scheduler::Attach` (scheduler.cc:180-185): set the fiber's
scheduler back-pointer; increment `num_worker_fibers_` for WORKER
fibers. -/
def Scheduler.Attach (cntx : FiberId) (st : ThreadState) : ThreadState :=
  let st1 := { st with
    fibers := updateFiber st.fibers cntx
      { st.fibers cntx with scheduler_ := some st.this_sched } }
  if (st.fibers cntx).type_ = FiberType.WORKER then
    { st1 with num_worker_fibers := st1.num_worker_fibers + 1 }
  else st1

/-- `Scheduler::ScheduleTermination` (scheduler.cc:187-192): push the
fiber onto the back of `terminate_queue_`; decrement
`num_worker_fibers_` for WORKER fibers. -/
def Scheduler.ScheduleTermination (cntx : FiberId) (st : ThreadState) : ThreadState :=
  let st1 := { st with terminate_queue := st.terminate_queue ++ [cntx] }
  if (st.fibers cntx).type_ = FiberType.WORKER then
    { st1 with num_worker_fibers := st1.num_worker_fibers - 1 }
  else st1

/-- `Scheduler::DestroyTerminated` (scheduler.cc:209-218): pop every
entry of `terminate_queue_` and release one strong reference on it
(`intrusive_ptr_release` lives in the header, outside `src/`; the
refcount bookkeeping is outside the modelled state, so the observable
effect on `ThreadState` is that the queue is drained). -/
def Scheduler.DestroyTerminated (st : ThreadState) : ThreadState :=
  { st with terminate_queue := [] }

/-- `Scheduler::DefaultDispatch` (scheduler.cc:194-207): the shutdown
loop in the body is commented out in the source; the function only
drains the terminated queue and logs the warning
"No thread suspension is supported". -/
def Scheduler.DefaultDispatch (st : ThreadState) : ThreadState :=
  Scheduler.DestroyTerminated st

/-- Ordered insertion into the sleep set: `sleep_queue_` is a
`boost::intrusive` set keyed by `tp_` (ascending), so `insert` places
the fiber before the first entry with a strictly larger key. -/
def insertByTp (fs : FiberId → FiberInterface) (me : FiberId) :
    List FiberId → List FiberId
  | [] => [me]
  | f :: rest =>
    if (fs me).tp_ < (fs f).tp_ then me :: f :: rest
    else f :: insertByTp fs me rest

/-- `Scheduler::WaitUntil` (scheduler.cc:220-226): record the deadline
in `me->tp_`, insert `me` into the sleep set, and `Preempt`. -/
def Scheduler.WaitUntil (tp : Nat) (st : ThreadState) : ThreadState :=
  let me := st.active
  let st1 := { st with
    fibers := updateFiber st.fibers me { st.fibers me with tp_ := tp } }
  let st2 := { st1 with sleep_queue := insertByTp st1.fibers me st1.sleep_queue }
  Scheduler.Preempt st2

/-- The `while` loop of `Scheduler::ProcessSleep` (scheduler.cc:233-239),
exactly as written: while the earliest entry's `tp_` compares `>= now`,
`MarkReady` it, erase it from the sleep set, and break when the set
becomes empty.  The list argument tracks `sleep_queue_`, whose head is
`begin()`. -/
def processSleepLoop (now : Nat) (st : ThreadState) : List FiberId → ThreadState
  | [] => st
  | f :: rest =>
    if (st.fibers f).tp_ ≥ now then
      processSleepLoop now
        { (Scheduler.MarkReady f st) with sleep_queue := rest } rest
    else st

/-- `Scheduler::ProcessSleep` (scheduler.cc:228-240): return if the
sleep set is empty, otherwise run the wake loop.  `now` is
`chrono::steady_clock::now()`, passed here as an argument. -/
def Scheduler.ProcessSleep (now : Nat) (st : ThreadState) : ThreadState :=
  if st.sleep_queue.isEmpty then st
  else processSleepLoop now st st.sleep_queue

/-- The joiner wake loop of `FiberInterface::Terminate`
(scheduler.cc:276-282): pop the front of `wait_queue_` and
`MarkReady` it at its scheduler (single-scheduler state: this
scheduler's ready queue), until the queue is empty. -/
def wakeJoiners (ws : List FiberId) (st : ThreadState) : ThreadState :=
  match ws with
  | [] => st
  | blocked :: rest => wakeJoiners rest (Scheduler.MarkReady blocked st)

/-- `FiberInterface::Terminate` (scheduler.cc:268-287): `this` is the
active fiber; set `flags.terminated`, hand the fiber to
`ScheduleTermination`, wake every joiner front-first (emptying
`wait_queue_`), and finish with an unconditional `Preempt`. -/
def FiberInterface.Terminate (st : ThreadState) : ThreadState :=
  let me := st.active
  let st1 := { st with
    fibers := updateFiber st.fibers me { st.fibers me with terminated := true } }
  let st2 := Scheduler.ScheduleTermination me st1
  let ws := (st2.fibers me).wait_queue_
  let st3 := { st2 with
    fibers := updateFiber st2.fibers me { st2.fibers me with wait_queue_ := [] } }
  Scheduler.Preempt (wakeJoiners ws st3)

/-- `FiberInterface::Start` (scheduler.cc:289-293): attach to the
calling thread's scheduler and mark ready. -/
def FiberInterface.Start (f : FiberId) (st : ThreadState) : ThreadState :=
  Scheduler.MarkReady f (Scheduler.Attach f st)

/-- `FiberInterface::Join` (scheduler.cc:295-309), called on `target` by
the active fiber.  The two `CHECK`s (caller is not the target; the
caller's scheduler equals the target's) are fatal: a violated one is
`none`.  If the target is already terminated the call returns with the
state untouched; otherwise the caller is pushed onto the FRONT of the
target's `wait_queue_` and the scheduler preempts. -/
def FiberInterface.Join (target : FiberId) (st : ThreadState) : Option ThreadState :=
  let active := st.active
  if active = target then none
  else if (st.fibers active).scheduler_ ≠ (st.fibers target).scheduler_ then none
  else if (st.fibers target).terminated then some st
  else
    let st1 := { st with
      fibers := updateFiber st.fibers target
        { st.fibers target with
          wait_queue_ := active :: (st.fibers target).wait_queue_ } }
    some (Scheduler.Preempt st1)

/-- `DispatcherImpl::Run` (scheduler.cc:112-137).  `c` is the incoming
continuation: when it is populated (`some`) this is the destruction
path and `Run` returns it immediately, doing no dispatch work.  When it
is empty, `Run` executes the thread's custom dispatch algorithm if one
is installed, otherwise `Scheduler::DefaultDispatch`, then sets
`is_terminating_` on the dispatcher fiber and switches to the main
context.  The second component is the resulting thread state; the
first is the continuation `Run` returns on the destruction path
(`none` on the normal path, where control has been transferred away). -/
def DispatcherImpl.Run (c : Option Continuation)
    (custom_algo : Option (ThreadState → ThreadState)) (st : ThreadState) :
    Option Continuation × ThreadState :=
  match c with
  | some fc => (some fc, st)
  | none =>
    let st1 := match custom_algo with
      | some algo => algo st
      | none => Scheduler.DefaultDispatch st
    let d := st1.dispatch_cntx
    let st2 := { st1 with
      fibers := updateFiber st1.fibers d
        { st1.fibers d with is_terminating_ := true } }
    (none, FiberInterface.SwitchTo st2.main_cntx st2)

/-- The name-truncation logic of the `FiberInterface` constructor
(scheduler.cc:248-255): `len = min(nm.size(), sizeof(name_) - 1)`,
`name_[len] = 0`, then `memcpy(name_, nm.data(), len)`.  `bufSize`
stands for `sizeof(name_)`, which is fixed in the header (not under
`src/`); the result is the list of bytes stored before the null
terminator. -/
def storedName (bufSize : Nat) (nm : List Char) : List Char :=
  nm.take (Nat.min nm.length (bufSize - 1))

/-- One step of the scheduling core: the operations a running fiber (or
the dispatcher's default loop) can invoke on the thread state, plus the
dispatcher's default-path exit — `DispatcherImpl::Run` entered with an
empty continuation and no custom algorithm installed, which runs
`DefaultDispatch`, marks the dispatcher terminating and switches to the
main context (scheduler.cc:124-133).  `Join` appears through its
successful (`some`) outcome; `Start` carries the spec's precondition
that the fiber is not yet attached; `Terminate` carries its
`DCHECK(!flags.terminated)` precondition.  Bare `MarkReady` (an
external wake request) and a caller-supplied dispatch algorithm are
outside the core, per spec sections 4.2 and 6. -/
inductive Step : ThreadState → ThreadState → Prop where
  | preempt (st : ThreadState) : Step st (Scheduler.Preempt st)
  | start (st : ThreadState) (f : FiberId) (h : (st.fibers f).scheduler_ = none) :
      Step st (FiberInterface.Start f st)
  | waitUntil (st : ThreadState) (tp : Nat) : Step st (Scheduler.WaitUntil tp st)
  | processSleep (st : ThreadState) (now : Nat) :
      Step st (Scheduler.ProcessSleep now st)
  | defaultDispatch (st : ThreadState) : Step st (Scheduler.DefaultDispatch st)
  | join (st st' : ThreadState) (target : FiberId)
      (h : FiberInterface.Join target st = some st') : Step st st'
  | terminate (st : ThreadState) (h : (st.fibers st.active).terminated = false) :
      Step st (FiberInterface.Terminate st)
  | dispatcherRun (st : ThreadState) :
      Step st (DispatcherImpl.Run none none st).2

/-- Fiber `c` is blocked joining fiber `F`: it sits on `F`'s (and only
`F`'s) wait queue, is linked into neither the ready queue nor the sleep
set, is not the active fiber, is neither the dispatcher nor the main
fiber (the main fiber CAN be resumed early, through the dispatcher's
exit switch — see the C4 counterexample), and is attached to a
scheduler. -/
def JoinerBlocked (c F : FiberId) (st : ThreadState) : Prop :=
  c ∈ (st.fibers F).wait_queue_ ∧
  c ∉ st.ready_queue ∧
  c ∉ st.sleep_queue ∧
  st.active ≠ c ∧
  c ≠ st.dispatch_cntx ∧
  (st.fibers c).scheduler_ ≠ none ∧
  (∀ g, g ≠ F → c ∉ (st.fibers g).wait_queue_) ∧
  c ≠ st.main_cntx

/-- A plain WORKER fiber attached to scheduler 0, used to build concrete
states. -/
def baseFiber : FiberInterface :=
  { type_ := FiberType.WORKER, use_count_ := 0, terminated := false,
    wait_queue_ := [], tp_ := 0, scheduler_ := some 0, entry_ := none,
    is_terminating_ := false }

/-- Concrete state for the sleep-wake bug: fiber 5 sleeps with deadline
`tp_ = 0`, already expired at `now = 1`. -/
def sleepBugState : ThreadState :=
  { active := 0, this_sched := 0, main_cntx := 0, dispatch_cntx := 1,
    ready_queue := [], sleep_queue := [5], terminate_queue := [],
    num_worker_fibers := 1, fibers := fun _ => baseFiber }

/-- Concrete state for the sleep-wake bug, other direction: fiber 5
sleeps with deadline `tp_ = 10`, still in the future at `now = 1`. -/
def sleepFutureState : ThreadState :=
  { active := 0, this_sched := 0, main_cntx := 0, dispatch_cntx := 1,
    ready_queue := [], sleep_queue := [5], terminate_queue := [],
    num_worker_fibers := 1, fibers := fun _ => { baseFiber with tp_ := 10 } }

/-- Concrete idle-loop state: fiber 7 awaits reclamation and fiber 5
sleeps with an already-expired deadline (`tp_ = 0`). -/
def idleBugState : ThreadState :=
  { active := 1, this_sched := 0, main_cntx := 0, dispatch_cntx := 1,
    ready_queue := [], sleep_queue := [5], terminate_queue := [7],
    num_worker_fibers := 2, fibers := fun _ => baseFiber }

/-- Concrete join/terminate scenario: fiber 2 (J1) is active, fibers 3
(J2) and 4 (T) are ready in that order; J1 joins T, then J2 runs and
joins T, then T runs and terminates. -/
def joinState0 : ThreadState :=
  { active := 2, this_sched := 0, main_cntx := 0, dispatch_cntx := 1,
    ready_queue := [3, 4], sleep_queue := [], terminate_queue := [],
    num_worker_fibers := 3, fibers := fun _ => baseFiber }

/-- Concrete state with a terminated fiber 4, used to exercise `Join` on
an already-terminated target. -/
def joinDoneState : ThreadState :=
  { active := 2, this_sched := 0, main_cntx := 0, dispatch_cntx := 1,
    ready_queue := [3], sleep_queue := [], terminate_queue := [],
    num_worker_fibers := 2,
    fibers := fun i => if i = 4 then { baseFiber with terminated := true } else baseFiber }

/-- Concrete state for the dispatcher-exit early resume: the MAIN fiber
0 is active, the ready queue is empty, and the unterminated WORKER
fiber 5 sits in the sleep set.  When fiber 0 joins fiber 5, `Preempt`
switches to the dispatcher (fiber 1), whose default dispatch is a
no-op, so `Run` switches straight back to the main context. -/
def mainJoinState : ThreadState :=
  { active := 0, this_sched := 0, main_cntx := 0, dispatch_cntx := 1,
    ready_queue := [], sleep_queue := [5], terminate_queue := [],
    num_worker_fibers := 1,
    fibers := fun i =>
      if i = 0 then { baseFiber with type_ := FiberType.MAIN }
      else if i = 1 then { baseFiber with type_ := FiberType.DISPATCH }
      else baseFiber }

/-- The state after fiber 2 performs its blocking join of fiber 4 in
`joinState0` (the `getD` default is never taken: the join succeeds). -/
def joinState1 : ThreadState :=
  (FiberInterface.Join 4 joinState0).getD joinState0

attribute [ext] ThreadState FiberInterface

/-! Basic facts about `SwitchTo`: it changes the active pointer and the
`entry_` slots of the two fibers involved, and nothing else. -/

@[simp] theorem switchTo_active (t : FiberId) (st : ThreadState) :
    (FiberInterface.SwitchTo t st).active = t := rfl

@[simp] theorem switchTo_ready_queue (t : FiberId) (st : ThreadState) :
    (FiberInterface.SwitchTo t st).ready_queue = st.ready_queue := rfl

@[simp] theorem switchTo_sleep_queue (t : FiberId) (st : ThreadState) :
    (FiberInterface.SwitchTo t st).sleep_queue = st.sleep_queue := rfl

@[simp] theorem switchTo_terminate_queue (t : FiberId) (st : ThreadState) :
    (FiberInterface.SwitchTo t st).terminate_queue = st.terminate_queue := rfl

@[simp] theorem switchTo_num_worker (t : FiberId) (st : ThreadState) :
    (FiberInterface.SwitchTo t st).num_worker_fibers = st.num_worker_fibers := rfl

@[simp] theorem switchTo_dispatch_cntx (t : FiberId) (st : ThreadState) :
    (FiberInterface.SwitchTo t st).dispatch_cntx = st.dispatch_cntx := rfl

@[simp] theorem switchTo_main_cntx (t : FiberId) (st : ThreadState) :
    (FiberInterface.SwitchTo t st).main_cntx = st.main_cntx := rfl

theorem switchTo_fibers_terminated (t : FiberId) (st : ThreadState) (j : FiberId) :
    ((FiberInterface.SwitchTo t st).fibers j).terminated = (st.fibers j).terminated := by
  simp only [FiberInterface.SwitchTo]
  by_cases h1 : j = st.active
  · simp [h1]
  · by_cases h2 : j = t
    · subst h2; simp [h1]
    · simp [h1, h2]

theorem switchTo_fibers_wait_queue (t : FiberId) (st : ThreadState) (j : FiberId) :
    ((FiberInterface.SwitchTo t st).fibers j).wait_queue_ = (st.fibers j).wait_queue_ := by
  simp only [FiberInterface.SwitchTo]
  by_cases h1 : j = st.active
  · simp [h1]
  · by_cases h2 : j = t
    · subst h2; simp [h1]
    · simp [h1, h2]

theorem switchTo_fibers_scheduler (t : FiberId) (st : ThreadState) (j : FiberId) :
    ((FiberInterface.SwitchTo t st).fibers j).scheduler_ = (st.fibers j).scheduler_ := by
  simp only [FiberInterface.SwitchTo]
  by_cases h1 : j = st.active
  · simp [h1]
  · by_cases h2 : j = t
    · subst h2; simp [h1]
    · simp [h1, h2]

theorem switchTo_fibers_is_terminating (t : FiberId) (st : ThreadState) (j : FiberId) :
    ((FiberInterface.SwitchTo t st).fibers j).is_terminating_ = (st.fibers j).is_terminating_ := by
  simp only [FiberInterface.SwitchTo]
  by_cases h1 : j = st.active
  · simp [h1]
  · by_cases h2 : j = t
    · subst h2; simp [h1]
    · simp [h1, h2]

/-- `Preempt` either switches to the dispatcher (empty ready queue) or
pops the front of the ready queue and switches to it. -/
theorem preempt_cases (st : ThreadState) :
    (st.ready_queue = [] ∧
      Scheduler.Preempt st = FiberInterface.SwitchTo st.dispatch_cntx st) ∨
    (∃ f rest, st.ready_queue = f :: rest ∧
      Scheduler.Preempt st =
        FiberInterface.SwitchTo f { st with ready_queue := rest }) := by
  cases h : st.ready_queue with
  | nil =>
    left
    refine ⟨rfl, ?_⟩
    unfold Scheduler.Preempt
    rw [h]
  | cons f rest =>
    right
    refine ⟨f, rest, rfl, ?_⟩
    unfold Scheduler.Preempt
    rw [h]

/-- `Preempt` preserves everything except the active pointer, the ready
queue (which only shrinks) and `entry_` slots; its target is the
dispatcher or a member of the ready queue. -/
theorem preempt_preserves (st : ThreadState) :
    (Scheduler.Preempt st).sleep_queue = st.sleep_queue ∧
    (Scheduler.Preempt st).terminate_queue = st.terminate_queue ∧
    (Scheduler.Preempt st).dispatch_cntx = st.dispatch_cntx ∧
    (Scheduler.Preempt st).main_cntx = st.main_cntx ∧
    (Scheduler.Preempt st).num_worker_fibers = st.num_worker_fibers ∧
    (∀ j, ((Scheduler.Preempt st).fibers j).terminated = (st.fibers j).terminated) ∧
    (∀ j, ((Scheduler.Preempt st).fibers j).wait_queue_ = (st.fibers j).wait_queue_) ∧
    (∀ j, ((Scheduler.Preempt st).fibers j).scheduler_ = (st.fibers j).scheduler_) := by
  rcases preempt_cases st with ⟨h, heq⟩ | ⟨f, rest, h, heq⟩ <;>
    rw [heq] <;>
    exact ⟨rfl, rfl, rfl, rfl, rfl,
      fun j => switchTo_fibers_terminated _ _ j,
      fun j => switchTo_fibers_wait_queue _ _ j,
      fun j => switchTo_fibers_scheduler _ _ j⟩

/-- A fiber absent from the ready queue stays absent across `Preempt`,
and cannot be the fiber `Preempt` selects unless it is the dispatcher. -/
theorem preempt_not_mem (st : ThreadState) (c : FiberId)
    (hr : c ∉ st.ready_queue) (hd : c ≠ st.dispatch_cntx) :
    c ∉ (Scheduler.Preempt st).ready_queue ∧ (Scheduler.Preempt st).active ≠ c := by
  rcases preempt_cases st with ⟨h, heq⟩ | ⟨f, rest, h, heq⟩ <;> rw [heq]
  · exact ⟨by simp [hr], fun hc => hd hc.symm⟩
  · rw [h] at hr
    simp only [List.mem_cons, not_or] at hr
    exact ⟨by simpa using hr.2, fun hc => hr.1 (by simpa using hc.symm)⟩

/-- Waking the joiner list appends it, front first, to the ready queue
and changes nothing else. -/
theorem wakeJoiners_eq (ws : List FiberId) (st : ThreadState) :
    wakeJoiners ws st = { st with ready_queue := st.ready_queue ++ ws } := by
  induction ws generalizing st with
  | nil => simp [wakeJoiners]
  | cons b rest ih =>
    rw [wakeJoiners, ih]
    simp [Scheduler.MarkReady]

@[simp] theorem scheduleTermination_fibers (cntx : FiberId) (st : ThreadState) :
    (Scheduler.ScheduleTermination cntx st).fibers = st.fibers := by
  unfold Scheduler.ScheduleTermination
  split <;> rfl

@[simp] theorem scheduleTermination_ready (cntx : FiberId) (st : ThreadState) :
    (Scheduler.ScheduleTermination cntx st).ready_queue = st.ready_queue := by
  unfold Scheduler.ScheduleTermination
  split <;> rfl

@[simp] theorem scheduleTermination_sleep (cntx : FiberId) (st : ThreadState) :
    (Scheduler.ScheduleTermination cntx st).sleep_queue = st.sleep_queue := by
  unfold Scheduler.ScheduleTermination
  split <;> rfl

@[simp] theorem scheduleTermination_active (cntx : FiberId) (st : ThreadState) :
    (Scheduler.ScheduleTermination cntx st).active = st.active := by
  unfold Scheduler.ScheduleTermination
  split <;> rfl

@[simp] theorem scheduleTermination_dispatch (cntx : FiberId) (st : ThreadState) :
    (Scheduler.ScheduleTermination cntx st).dispatch_cntx = st.dispatch_cntx := by
  unfold Scheduler.ScheduleTermination
  split <;> rfl

@[simp] theorem attach_fibers_fields (cntx : FiberId) (st : ThreadState) (j : FiberId) :
    ((Scheduler.Attach cntx st).fibers j).terminated = (st.fibers j).terminated ∧
    ((Scheduler.Attach cntx st).fibers j).wait_queue_ = (st.fibers j).wait_queue_ := by
  unfold Scheduler.Attach
  split <;> · simp only [updateFiber]; split <;> simp_all

@[simp] theorem attach_queues (cntx : FiberId) (st : ThreadState) :
    (Scheduler.Attach cntx st).ready_queue = st.ready_queue ∧
    (Scheduler.Attach cntx st).sleep_queue = st.sleep_queue ∧
    (Scheduler.Attach cntx st).active = st.active ∧
    (Scheduler.Attach cntx st).dispatch_cntx = st.dispatch_cntx := by
  unfold Scheduler.Attach
  split <;> exact ⟨rfl, rfl, rfl, rfl⟩

/-- Membership in the ordered sleep-set insertion. -/
theorem mem_insertByTp (fs : FiberId → FiberInterface) (me x : FiberId) :
    ∀ l : List FiberId, x ∈ insertByTp fs me l ↔ x = me ∨ x ∈ l := by
  intro l
  induction l with
  | nil => simp [insertByTp]
  | cons f rest ih =>
    unfold insertByTp
    split
    · simp [List.mem_cons]
    · simp only [List.mem_cons, ih]
      tauto

/-- The sleep-wake loop never touches the active pointer, the fiber
table, the dispatcher, the terminated queue or the worker count. -/
theorem processSleepLoop_preserves (now : Nat) :
    ∀ (q : List FiberId) (st : ThreadState),
    (processSleepLoop now st q).active = st.active ∧
    (processSleepLoop now st q).fibers = st.fibers ∧
    (processSleepLoop now st q).dispatch_cntx = st.dispatch_cntx ∧
    (processSleepLoop now st q).main_cntx = st.main_cntx ∧
    (processSleepLoop now st q).terminate_queue = st.terminate_queue ∧
    (processSleepLoop now st q).num_worker_fibers = st.num_worker_fibers := by
  intro q
  induction q with
  | nil => intro st; exact ⟨rfl, rfl, rfl, rfl, rfl, rfl⟩
  | cons f rest ih =>
    intro st
    unfold processSleepLoop
    split
    · exact ih _
    · exact ⟨rfl, rfl, rfl, rfl, rfl, rfl⟩

/-- A fiber outside both the sleep set and the ready queue is in
neither after the sleep-wake loop runs. -/
theorem processSleepLoop_not_mem (now : Nat) (c : FiberId) :
    ∀ (q : List FiberId) (st : ThreadState), st.sleep_queue = q →
    c ∉ q → c ∉ st.ready_queue →
    c ∉ (processSleepLoop now st q).ready_queue ∧
    c ∉ (processSleepLoop now st q).sleep_queue := by
  intro q
  induction q with
  | nil =>
    intro st hq _ hr
    exact ⟨hr, by rw [processSleepLoop, hq]; exact List.not_mem_nil c⟩
  | cons f rest ih =>
    intro st hq hcq hr
    simp only [List.mem_cons, not_or] at hcq
    unfold processSleepLoop
    split
    · exact ih _ rfl hcq.2 (by simp [Scheduler.MarkReady, hr, hcq.1])
    · exact ⟨hr, by rw [hq]; simp [hcq.1, hcq.2]⟩

/-- Case analysis of `FiberInterface::Join`: the two fatal `CHECK`s, the
already-terminated early return, and the blocking path. -/
theorem join_self (st : ThreadState) :
    FiberInterface.Join st.active st = none := by
  unfold FiberInterface.Join
  simp

theorem join_cross_sched (st : ThreadState) (target : FiberId)
    (h1 : st.active ≠ target)
    (h2 : (st.fibers st.active).scheduler_ ≠ (st.fibers target).scheduler_) :
    FiberInterface.Join target st = none := by
  unfold FiberInterface.Join
  simp [h1, h2]

theorem join_terminated_eq (st : ThreadState) (target : FiberId)
    (h1 : st.active ≠ target)
    (h2 : (st.fibers st.active).scheduler_ = (st.fibers target).scheduler_)
    (h3 : (st.fibers target).terminated = true) :
    FiberInterface.Join target st = some st := by
  unfold FiberInterface.Join
  simp [h1, h2, h3]

theorem join_blocking_eq (st : ThreadState) (target : FiberId)
    (h1 : st.active ≠ target)
    (h2 : (st.fibers st.active).scheduler_ = (st.fibers target).scheduler_)
    (h3 : (st.fibers target).terminated = false) :
    FiberInterface.Join target st =
      some (Scheduler.Preempt
        { st with
          fibers := updateFiber st.fibers target
            { st.fibers target with
              wait_queue_ := st.active :: (st.fibers target).wait_queue_ } }) := by
  unfold FiberInterface.Join
  simp [h1, h2, h3]

/-- Inversion for a successful `Join`. -/
theorem join_some_inv (st st' : ThreadState) (target : FiberId)
    (h : FiberInterface.Join target st = some st') :
    st.active ≠ target ∧
    ((st.fibers target).terminated = true ∧ st' = st ∨
     (st.fibers target).terminated = false ∧
       st' = Scheduler.Preempt
         { st with
           fibers := updateFiber st.fibers target
             { st.fibers target with
               wait_queue_ := st.active :: (st.fibers target).wait_queue_ } }) := by
  by_cases h1 : st.active = target
  · have hc := join_self st
    rw [h1] at hc
    rw [hc] at h
    exact absurd h (by simp)
  · by_cases h2 : (st.fibers st.active).scheduler_ = (st.fibers target).scheduler_
    · by_cases h3 : (st.fibers target).terminated = true
      · rw [join_terminated_eq st target h1 h2 h3] at h
        exact ⟨h1, Or.inl ⟨h3, (Option.some_inj.mp h).symm⟩⟩
      · have h3f : (st.fibers target).terminated = false := by
          exact Bool.not_eq_true _ ▸ Bool.eq_false_iff.mpr (fun hh => h3 hh)
        rw [join_blocking_eq st target h1 h2 h3f] at h
        exact ⟨h1, Or.inr ⟨h3f, (Option.some_inj.mp h).symm⟩⟩
    · rw [join_cross_sched st target h1 h2] at h
      exact absurd h (by simp)

/-- `ScheduleTermination`, written as one record update. -/
theorem scheduleTermination_eq (cntx : FiberId) (st : ThreadState) :
    Scheduler.ScheduleTermination cntx st =
      { st with
        terminate_queue := st.terminate_queue ++ [cntx]
        num_worker_fibers :=
          if (st.fibers cntx).type_ = FiberType.WORKER then
            st.num_worker_fibers - 1 else st.num_worker_fibers } := by
  unfold Scheduler.ScheduleTermination
  by_cases hw : (st.fibers cntx).type_ = FiberType.WORKER
  · simp [hw]
  · simp [hw]

/-- `Terminate` factors as: set the terminated flag, queue the fiber for
reclamation (adjusting the worker count), move the whole joiner list,
front first, onto the back of the ready queue, empty the joiner list,
then `Preempt`. -/
theorem terminate_eq (st : ThreadState) :
    FiberInterface.Terminate st =
      Scheduler.Preempt
        { st with
          ready_queue := st.ready_queue ++ (st.fibers st.active).wait_queue_
          terminate_queue := st.terminate_queue ++ [st.active]
          num_worker_fibers :=
            if (st.fibers st.active).type_ = FiberType.WORKER then
              st.num_worker_fibers - 1 else st.num_worker_fibers
          fibers := updateFiber st.fibers st.active
            { st.fibers st.active with terminated := true, wait_queue_ := [] } } := by
  unfold FiberInterface.Terminate
  dsimp only
  rw [scheduleTermination_eq]
  dsimp only
  rw [wakeJoiners_eq]
  congr 1
  ext : 1
  · rfl
  · rfl
  · rfl
  · rfl
  · dsimp only
    simp [updateFiber]
  · rfl
  · rfl
  · simp [updateFiber]
  · funext j
    by_cases hj : j = st.active <;> simp [updateFiber, hj]

/-- `WaitUntil` never touches the terminated flags, the joiner lists or
the scheduler back-pointers. -/
theorem waitUntil_fibers_fields (tp : Nat) (st : ThreadState) (j : FiberId) :
    ((Scheduler.WaitUntil tp st).fibers j).terminated = (st.fibers j).terminated ∧
    ((Scheduler.WaitUntil tp st).fibers j).wait_queue_ = (st.fibers j).wait_queue_ ∧
    ((Scheduler.WaitUntil tp st).fibers j).scheduler_ = (st.fibers j).scheduler_ := by
  unfold Scheduler.WaitUntil
  dsimp only
  have hp := preempt_preserves
    { st with
      fibers := updateFiber st.fibers st.active
        { st.fibers st.active with tp_ := tp }
      sleep_queue := insertByTp
        (updateFiber st.fibers st.active { st.fibers st.active with tp_ := tp })
        st.active st.sleep_queue }
  refine ⟨?_, ?_, ?_⟩
  · rw [hp.2.2.2.2.2.1 j]
    by_cases hj : j = st.active <;> simp [updateFiber, hj]
  · rw [hp.2.2.2.2.2.2.1 j]
    by_cases hj : j = st.active <;> simp [updateFiber, hj]
  · rw [hp.2.2.2.2.2.2.2 j]
    by_cases hj : j = st.active <;> simp [updateFiber, hj]

/-- The dispatcher's default-path exit, written as one switch: drain the
terminated queue, set `is_terminating_` on the dispatcher, switch to
the main context. -/
theorem dispatcherRun_exit_eq (st : ThreadState) :
    (DispatcherImpl.Run none none st).2 =
      FiberInterface.SwitchTo st.main_cntx
        { st with
          terminate_queue := []
          fibers := updateFiber st.fibers st.dispatch_cntx
            { st.fibers st.dispatch_cntx with is_terminating_ := true } } := rfl

theorem attach_main (cntx : FiberId) (st : ThreadState) :
    (Scheduler.Attach cntx st).main_cntx = st.main_cntx := by
  unfold Scheduler.Attach
  split <;> rfl

theorem preempt_main (st : ThreadState) :
    (Scheduler.Preempt st).main_cntx = st.main_cntx :=
  (preempt_preserves st).2.2.2.1

/-- No step of the scheduling core ever clears a set terminated flag. -/
theorem step_terminated_mono {st st' : ThreadState} (h : Step st st')
    (f : FiberId) (ht : (st.fibers f).terminated = true) :
    (st'.fibers f).terminated = true := by
  cases h with
  | preempt => rw [(preempt_preserves st).2.2.2.2.2.1 f]; exact ht
  | start g hg =>
    unfold FiberInterface.Start
    rw [show ((Scheduler.MarkReady g (Scheduler.Attach g st)).fibers f) =
        ((Scheduler.Attach g st).fibers f) from rfl]
    rw [(attach_fibers_fields g st f).1]
    exact ht
  | waitUntil tp => rw [(waitUntil_fibers_fields tp st f).1]; exact ht
  | processSleep now =>
    unfold Scheduler.ProcessSleep
    split
    · exact ht
    · rw [show ((processSleepLoop now st st.sleep_queue).fibers f) = (st.fibers f) from
        congrFun (processSleepLoop_preserves now st.sleep_queue st).2.1 f]
      exact ht
  | defaultDispatch => exact ht
  | join _ tgt hj =>
    rcases join_some_inv st st' tgt hj with ⟨hne, hc | hc⟩
    · rw [hc.2]; exact ht
    · rw [hc.2]
      rw [(preempt_preserves _).2.2.2.2.2.1 f]
      by_cases hf : f = tgt <;> simp [updateFiber, hf, ht]
      rw [hf] at ht
      simp [ht]
  | terminate hter =>
    rw [terminate_eq]
    rw [(preempt_preserves _).2.2.2.2.2.1 f]
    by_cases hf : f = st.active <;> simp [updateFiber, hf, ht]
  | dispatcherRun =>
    rw [dispatcherRun_exit_eq, switchTo_fibers_terminated]
    by_cases hf : f = st.dispatch_cntx
    · simp only [updateFiber, if_pos hf]
      rw [hf] at ht
      exact ht
    · simp only [updateFiber, if_neg hf]
      exact ht

/-- A set terminated flag survives any number of steps. -/
theorem steps_terminated_mono {st st' : ThreadState}
    (h : Relation.ReflTransGen Step st st') (f : FiberId)
    (ht : (st.fibers f).terminated = true) : (st'.fibers f).terminated = true := by
  induction h with
  | refl => exact ht
  | tail _ hstep ih => exact step_terminated_mono hstep f ih

@[simp] theorem markReady_fibers (f : FiberId) (st : ThreadState) :
    (Scheduler.MarkReady f st).fibers = st.fibers := rfl

@[simp] theorem markReady_active (f : FiberId) (st : ThreadState) :
    (Scheduler.MarkReady f st).active = st.active := rfl

@[simp] theorem markReady_sleep (f : FiberId) (st : ThreadState) :
    (Scheduler.MarkReady f st).sleep_queue = st.sleep_queue := rfl

@[simp] theorem markReady_dispatch (f : FiberId) (st : ThreadState) :
    (Scheduler.MarkReady f st).dispatch_cntx = st.dispatch_cntx := rfl

@[simp] theorem markReady_main_cntx (f : FiberId) (st : ThreadState) :
    (Scheduler.MarkReady f st).main_cntx = st.main_cntx := rfl

@[simp] theorem markReady_ready (f : FiberId) (st : ThreadState) :
    (Scheduler.MarkReady f st).ready_queue = st.ready_queue ++ [f] := rfl

theorem attach_fibers_ne (cntx : FiberId) (st : ThreadState) (j : FiberId)
    (hj : j ≠ cntx) : (Scheduler.Attach cntx st).fibers j = st.fibers j := by
  unfold Scheduler.Attach
  split <;> simp [updateFiber, hj]

theorem preempt_fibers_terminated (st : ThreadState) (j : FiberId) :
    ((Scheduler.Preempt st).fibers j).terminated = (st.fibers j).terminated :=
  (preempt_preserves st).2.2.2.2.2.1 j

theorem preempt_fibers_wait (st : ThreadState) (j : FiberId) :
    ((Scheduler.Preempt st).fibers j).wait_queue_ = (st.fibers j).wait_queue_ :=
  (preempt_preserves st).2.2.2.2.2.2.1 j

theorem preempt_fibers_sched (st : ThreadState) (j : FiberId) :
    ((Scheduler.Preempt st).fibers j).scheduler_ = (st.fibers j).scheduler_ :=
  (preempt_preserves st).2.2.2.2.2.2.2 j

theorem preempt_sleep (st : ThreadState) :
    (Scheduler.Preempt st).sleep_queue = st.sleep_queue :=
  (preempt_preserves st).1

theorem preempt_dispatch (st : ThreadState) :
    (Scheduler.Preempt st).dispatch_cntx = st.dispatch_cntx :=
  (preempt_preserves st).2.2.1

/-- One step of the core never resumes, readies, or re-sleeps a fiber
that is blocked joining a not-yet-terminated fiber and is neither the
dispatcher nor the main context: unless the step is the terminate of
the join target `F` itself (excluded here by `F` still being
unterminated afterwards), the blocked fiber stays exactly where it was
— on `F`'s joiner list — and does not become active.  The main-fiber
exclusion is necessary: the `dispatcherRun` step switches to the main
context unconditionally, resuming a blocked main fiber early. -/
theorem step_joinerBlocked {st st' : ThreadState} (h : Step st st') (c F : FiberId)
    (hb : JoinerBlocked c F st) (hF : (st'.fibers F).terminated = false) :
    JoinerBlocked c F st' := by
  obtain ⟨h1, h2, h3, h4, h5, h6, h7, h8⟩ := hb
  cases h with
  | preempt =>
    obtain ⟨hm, hact⟩ := preempt_not_mem st c h2 h5
    exact ⟨by rw [preempt_fibers_wait]; exact h1, hm,
      by rw [preempt_sleep]; exact h3, hact,
      by rw [preempt_dispatch]; exact h5,
      by rw [preempt_fibers_sched]; exact h6,
      fun g hg => by rw [preempt_fibers_wait]; exact h7 g hg,
      by rw [preempt_main]; exact h8⟩
  | start g hg =>
    have hgc : g ≠ c := fun he => h6 (he ▸ hg)
    unfold FiberInterface.Start
    refine ⟨?_, ?_, ?_, ?_, ?_, ?_, ?_, ?_⟩
    · rw [markReady_fibers, (attach_fibers_fields g st F).2]; exact h1
    · rw [markReady_ready, (attach_queues g st).1]
      simp only [List.mem_append, List.mem_singleton, not_or]
      exact ⟨h2, fun he => hgc he.symm⟩
    · rw [markReady_sleep, (attach_queues g st).2.1]; exact h3
    · rw [markReady_active, (attach_queues g st).2.2.1]; exact h4
    · rw [markReady_dispatch, (attach_queues g st).2.2.2]; exact h5
    · rw [markReady_fibers, attach_fibers_ne g st c (fun he => hgc he.symm)]; exact h6
    · intro g2 hg2
      rw [markReady_fibers, (attach_fibers_fields g st g2).2]; exact h7 g2 hg2
    · rw [markReady_main_cntx, attach_main]; exact h8
  | waitUntil tp =>
    unfold Scheduler.WaitUntil
    dsimp only
    set u := updateFiber st.fibers st.active { st.fibers st.active with tp_ := tp } with hu
    set st2 : ThreadState :=
      { st with fibers := u, sleep_queue := insertByTp u st.active st.sleep_queue }
      with hst2
    have h2' : c ∉ st2.ready_queue := h2
    have h5' : c ≠ st2.dispatch_cntx := h5
    obtain ⟨hm, hact⟩ := preempt_not_mem st2 c h2' h5'
    have hwf : ∀ j, (st2.fibers j).wait_queue_ = (st.fibers j).wait_queue_ := by
      intro j
      by_cases hj : j = st.active <;> simp [hst2, hu, updateFiber, hj]
    have hsf : ∀ j, (st2.fibers j).scheduler_ = (st.fibers j).scheduler_ := by
      intro j
      by_cases hj : j = st.active <;> simp [hst2, hu, updateFiber, hj]
    refine ⟨?_, hm, ?_, hact, ?_, ?_, ?_, ?_⟩
    · rw [preempt_fibers_wait, hwf]; exact h1
    · rw [preempt_sleep]
      show c ∉ insertByTp u st.active st.sleep_queue
      rw [mem_insertByTp]
      rintro (he | he)
      · exact h4 he.symm
      · exact h3 he
    · rw [preempt_dispatch]; exact h5
    · rw [preempt_fibers_sched, hsf]; exact h6
    · intro g hg
      rw [preempt_fibers_wait, hwf]; exact h7 g hg
    · rw [preempt_main]; exact h8
  | processSleep now =>
    unfold Scheduler.ProcessSleep
    split
    · exact ⟨h1, h2, h3, h4, h5, h6, h7, h8⟩
    · obtain ⟨hpa, hpf, hpd, hpm, _, _⟩ :=
        processSleepLoop_preserves now st.sleep_queue st
      obtain ⟨hm, hs⟩ :=
        processSleepLoop_not_mem now c st.sleep_queue st rfl h3 h2
      exact ⟨by rw [hpf]; exact h1, hm, hs,
        by rw [hpa]; exact h4, by rw [hpd]; exact h5,
        by rw [hpf]; exact h6, fun g hg => by rw [hpf]; exact h7 g hg,
        by rw [hpm]; exact h8⟩
  | defaultDispatch =>
    exact ⟨h1, h2, h3, h4, h5, h6, h7, h8⟩
  | join _ tgt hj =>
    rcases join_some_inv st _ tgt hj with ⟨hne, ⟨_, heq⟩ | ⟨_, heq⟩⟩
    · rw [heq]; exact ⟨h1, h2, h3, h4, h5, h6, h7, h8⟩
    · rw [heq]
      set st1 : ThreadState :=
        { st with
          fibers := updateFiber st.fibers tgt
            { st.fibers tgt with
              wait_queue_ := st.active :: (st.fibers tgt).wait_queue_ } } with hst1
      have h2' : c ∉ st1.ready_queue := h2
      have h5' : c ≠ st1.dispatch_cntx := h5
      obtain ⟨hm, hact⟩ := preempt_not_mem st1 c h2' h5'
      refine ⟨?_, hm, ?_, hact, ?_, ?_, ?_, ?_⟩
      · rw [preempt_fibers_wait]
        by_cases hF' : tgt = F
        · subst hF'
          simp only [hst1, updateFiber, if_pos rfl]
          exact List.mem_cons_of_mem _ h1
        · simp only [hst1, updateFiber, if_neg (fun he : F = tgt => hF' he.symm)]
          exact h1
      · rw [preempt_sleep]; exact h3
      · rw [preempt_dispatch]; exact h5
      · rw [preempt_fibers_sched]
        by_cases hc : c = tgt
        · simp only [hst1, updateFiber, if_pos hc]
          rw [hc] at h6
          exact h6
        · simp only [hst1, updateFiber, if_neg hc]
          exact h6
      · intro g hg
        rw [preempt_fibers_wait]
        by_cases hgt : g = tgt
        · subst hgt
          simp only [hst1, updateFiber, if_pos rfl]
          intro hmem
          rcases List.mem_cons.mp hmem with he | he
          · exact h4 he.symm
          · exact h7 g hg he
        · simp only [hst1, updateFiber, if_neg hgt]
          exact h7 g hg
      · rw [preempt_main]; exact h8
  | terminate hter =>
    rw [terminate_eq] at hF ⊢
    by_cases hFa : st.active = F
    · exfalso
      rw [preempt_fibers_terminated] at hF
      simp only [updateFiber, hFa, if_pos rfl] at hF
      exact absurd hF (by simp)
    · set stMid : ThreadState :=
        { st with
          ready_queue := st.ready_queue ++ (st.fibers st.active).wait_queue_
          terminate_queue := st.terminate_queue ++ [st.active]
          num_worker_fibers :=
            if (st.fibers st.active).type_ = FiberType.WORKER then
              st.num_worker_fibers - 1 else st.num_worker_fibers
          fibers := updateFiber st.fibers st.active
            { st.fibers st.active with terminated := true, wait_queue_ := [] } }
        with hstMid
      have h2' : c ∉ stMid.ready_queue := by
        simp only [hstMid, List.mem_append, not_or]
        exact ⟨h2, h7 st.active hFa⟩
      have h5' : c ≠ stMid.dispatch_cntx := h5
      obtain ⟨hm, hact⟩ := preempt_not_mem stMid c h2' h5'
      refine ⟨?_, hm, ?_, hact, ?_, ?_, ?_, ?_⟩
      · rw [preempt_fibers_wait]
        simp only [hstMid, updateFiber, if_neg (fun he : F = st.active => hFa he.symm)]
        exact h1
      · rw [preempt_sleep]; exact h3
      · rw [preempt_dispatch]; exact h5
      · rw [preempt_fibers_sched]
        by_cases hc : c = st.active
        · exact absurd hc.symm h4
        · simp only [hstMid, updateFiber, if_neg hc]
          exact h6
      · intro g hg
        rw [preempt_fibers_wait]
        by_cases hga : g = st.active
        · subst hga
          simp [hstMid, updateFiber]
        · simp only [hstMid, updateFiber, if_neg hga]
          exact h7 g hg
      · rw [preempt_main]; exact h8
  | dispatcherRun =>
    rw [dispatcherRun_exit_eq]
    refine ⟨?_, ?_, ?_, ?_, ?_, ?_, ?_, ?_⟩
    · rw [switchTo_fibers_wait_queue]
      by_cases hFd : F = st.dispatch_cntx
      · simp only [updateFiber, if_pos hFd]
        rw [hFd] at h1
        exact h1
      · simp only [updateFiber, if_neg hFd]
        exact h1
    · show c ∉ st.ready_queue
      exact h2
    · show c ∉ st.sleep_queue
      exact h3
    · show st.main_cntx ≠ c
      exact fun he => h8 he.symm
    · show c ≠ st.dispatch_cntx
      exact h5
    · rw [switchTo_fibers_scheduler]
      simp only [updateFiber, if_neg h5]
      exact h6
    · intro g hg
      rw [switchTo_fibers_wait_queue]
      by_cases hgd : g = st.dispatch_cntx
      · simp only [updateFiber, if_pos hgd]
        exact h7 st.dispatch_cntx (hgd ▸ hg)
      · simp only [updateFiber, if_neg hgd]
        exact h7 g hg
    · show c ≠ st.main_cntx
      exact h8

/-- Trace form: along any execution of core steps, as long as the join
target `F` has not terminated, a fiber blocked joining `F` stays blocked
on `F`'s joiner list and never becomes the active fiber. -/
theorem steps_joinerBlocked {st st' : ThreadState}
    (h : Relation.ReflTransGen Step st st') (c F : FiberId)
    (hb : JoinerBlocked c F st) :
    (st'.fibers F).terminated = false → JoinerBlocked c F st' := by
  induction h with
  | refl => exact fun _ => hb
  | @tail b c2 hab hbc ih =>
    intro hF
    have hmid : (b.fibers F).terminated = false := by
      by_cases hm : (b.fibers F).terminated = true
      · have := step_terminated_mono hbc F hm
        rw [this] at hF
        exact absurd hF (by simp)
      · exact Bool.eq_false_iff.mpr (fun he => hm he)
    exact step_joinerBlocked hbc c F (ih hmid) hF

/-- Claim C1 (status: code bug in `Scheduler::ProcessSleep`).  The claim
says `process_sleep(now)` marks ready exactly the sleepers whose
deadline is at or before `now`.  The loop condition in scheduler.cc:233
is `sleep_queue_.begin()->tp_ >= now`, which is inverted: with a single
sleeper (fiber 5) whose deadline 0 has already passed at `now = 1`,
nothing is woken and the state is returned untouched; with a single
sleeper whose deadline 10 is still in the future at `now = 1`, the
fiber is woken and removed from the sleep set. -/
theorem processSleep_wakes_wrong_fibers :
    Scheduler.ProcessSleep 1 sleepBugState = sleepBugState ∧
    (sleepBugState.fibers 5).tp_ = 0 ∧
    (Scheduler.ProcessSleep 1 sleepBugState).ready_queue = [] ∧
    (Scheduler.ProcessSleep 1 sleepBugState).sleep_queue = [5] ∧
    (sleepFutureState.fibers 5).tp_ = 10 ∧
    (Scheduler.ProcessSleep 1 sleepFutureState).ready_queue = [5] ∧
    (Scheduler.ProcessSleep 1 sleepFutureState).sleep_queue = [] :=
  ⟨rfl, rfl, rfl, rfl, rfl, rfl, rfl⟩

/-- Claim C3: `Scheduler::Preempt` switches to the front fiber of the
ready queue after removing it when the queue is non-empty, and to the
dispatcher when the queue is empty; the two cases are exhaustive, so no
other fiber is ever selected. -/
theorem preempt_fifo_dispatch (st : ThreadState) :
    (st.ready_queue = [] →
      Scheduler.Preempt st = FiberInterface.SwitchTo st.dispatch_cntx st) ∧
    (∀ f rest, st.ready_queue = f :: rest →
      Scheduler.Preempt st =
        FiberInterface.SwitchTo f { st with ready_queue := rest } ∧
      (Scheduler.Preempt st).active = f ∧
      (Scheduler.Preempt st).ready_queue = rest) := by
  constructor
  · intro h
    rcases preempt_cases st with ⟨_, heq⟩ | ⟨f, rest, hr, _⟩
    · exact heq
    · rw [h] at hr
      exact absurd hr (by simp)
  · intro f rest h
    rcases preempt_cases st with ⟨hr, _⟩ | ⟨f2, rest2, hr, heq⟩
    · rw [h] at hr
      exact absurd hr (by simp)
    · rw [h] at hr
      injection hr with e1 e2
      subst e1; subst e2
      exact ⟨heq, by rw [heq]; rfl, by rw [heq]; rfl⟩

/-- Witness for C3 at a concrete state: the ready queue `[3, 4]` makes
`Preempt` pop and switch to fiber 3, leaving `[4]`. -/
theorem preempt_fifo_dispatch_witness :
    Scheduler.Preempt joinState0 =
      FiberInterface.SwitchTo 3 { joinState0 with ready_queue := [4] } ∧
    (Scheduler.Preempt joinState0).active = 3 ∧
    (Scheduler.Preempt joinState0).ready_queue = [4] :=
  (preempt_fifo_dispatch joinState0).2 3 [4] rfl

/-- Claim C6 (status: code bug / incomplete default dispatch).  The
claim says the default idle behavior processes the sleep set, marking
ready every expired sleeper, besides draining the terminated queue and
yielding.  `Scheduler::DefaultDispatch` (its loop commented out in the
source) only drains `terminate_queue_` and logs a warning: with fiber 5
sleeping on an already-expired deadline 0 and fiber 7 awaiting
reclamation, the terminated queue is drained but the expired sleeper
stays in the sleep set and nothing is marked ready. -/
theorem defaultDispatch_skips_sleepers :
    (Scheduler.DefaultDispatch idleBugState).terminate_queue = [] ∧
    (idleBugState.fibers 5).tp_ = 0 ∧
    (Scheduler.DefaultDispatch idleBugState).sleep_queue = [5] ∧
    (Scheduler.DefaultDispatch idleBugState).ready_queue = [] :=
  ⟨rfl, rfl, rfl, rfl⟩

/-- Claim C8: the stored fiber name equals the supplied string when it
fits in the name buffer (`sizeof(name_)` bytes, one reserved for the
null terminator) and is otherwise the longest fitting prefix; the null
terminator always lands inside the buffer. -/
theorem fiber_name_truncation (bufSize : Nat) (nm : List Char) (h : 1 ≤ bufSize) :
    (nm.length ≤ bufSize - 1 → storedName bufSize nm = nm) ∧
    (bufSize - 1 < nm.length → storedName bufSize nm = nm.take (bufSize - 1)) ∧
    (storedName bufSize nm).length < bufSize := by
  refine ⟨?_, ?_, ?_⟩
  · intro hle
    show nm.take (min nm.length (bufSize - 1)) = nm
    rw [Nat.min_eq_left hle]
    exact List.take_length nm
  · intro hlt
    show nm.take (min nm.length (bufSize - 1)) = nm.take (bufSize - 1)
    rw [Nat.min_eq_right (Nat.le_of_lt hlt)]
  · show (nm.take (min nm.length (bufSize - 1))).length < bufSize
    rw [List.length_take]
    omega

/-- Witness for C8: buffer of 4 bytes stores a 2-character name intact
and truncates a 5-character name to its first 3 characters. -/
theorem fiber_name_truncation_witness :
    storedName 4 ['a', 'b'] = ['a', 'b'] ∧
    storedName 4 ['a', 'b', 'c', 'd', 'e'] = ['a', 'b', 'c'] ∧
    (storedName 4 ['a', 'b', 'c', 'd', 'e']).length < 4 := by
  refine ⟨?_, ?_, ?_⟩
  · exact (fiber_name_truncation 4 ['a', 'b'] (by decide)).1 (by decide)
  · exact ((fiber_name_truncation 4 ['a', 'b', 'c', 'd', 'e'] (by decide)).2.1
      (by decide)).trans (by decide)
  · exact (fiber_name_truncation 4 ['a', 'b', 'c', 'd', 'e'] (by decide)).2.2

/-- Claim C9: `SwitchTo` makes the target the thread's active fiber and
stores the previously active fiber's suspended continuation into its
own `entry_` slot (so it stays resumable) while the target's slot is
moved out; no other fiber is touched, and the active pointer — being a
single per-thread pointer — designates exactly one fiber. -/
theorem switchTo_protocol (st : ThreadState) (target : FiberId)
    (h : st.active ≠ target) :
    (FiberInterface.SwitchTo target st).active = target ∧
    ((FiberInterface.SwitchTo target st).fibers st.active).entry_ =
      some (contOf st.active) ∧
    ((FiberInterface.SwitchTo target st).fibers target).entry_ = none ∧
    (∀ j, j ≠ st.active → j ≠ target →
      (FiberInterface.SwitchTo target st).fibers j = st.fibers j) ∧
    (∃! f, (FiberInterface.SwitchTo target st).active = f) := by
  have h' : target ≠ st.active := fun he => h he.symm
  refine ⟨rfl, ?_, ?_, ?_, ⟨target, rfl, fun y hy => hy.symm⟩⟩
  · simp [FiberInterface.SwitchTo]
  · simp [FiberInterface.SwitchTo, h']
  · intro j hj1 hj2
    simp [FiberInterface.SwitchTo, hj1, hj2]

/-- Witness for C9: switching from the active fiber 2 to fiber 3. -/
theorem switchTo_protocol_witness :
    (FiberInterface.SwitchTo 3 joinState0).active = 3 ∧
    ((FiberInterface.SwitchTo 3 joinState0).fibers 2).entry_ = some (contOf 2) ∧
    ((FiberInterface.SwitchTo 3 joinState0).fibers 3).entry_ = none := by
  have h := switchTo_protocol joinState0 3 (by decide)
  exact ⟨h.1, h.2.1, h.2.2.1⟩

/-- Claim C10: joining an already-terminated fiber (valid caller, same
scheduler) returns immediately with the state — every queue, every
fiber field and the active pointer — exactly as it was. -/
theorem join_terminated_noop (st : ThreadState) (target : FiberId)
    (h1 : st.active ≠ target)
    (h2 : (st.fibers st.active).scheduler_ = (st.fibers target).scheduler_)
    (h3 : (st.fibers target).terminated = true) :
    FiberInterface.Join target st = some st :=
  join_terminated_eq st target h1 h2 h3

/-- Witness for C10: fiber 2 joins the terminated fiber 4 and the state
comes back untouched. -/
theorem join_terminated_noop_witness :
    FiberInterface.Join 4 joinDoneState = some joinDoneState :=
  join_terminated_noop joinDoneState 4 (by decide) (by decide) (by decide)

/-- Counterexample to claim C2 as stated (FIFO release of joiners).
Starting from `joinState0`, fiber 2 joins fiber 4, then fiber 3 joins
fiber 4, then fiber 4 terminates.  `Join` pushes callers on the FRONT
of `wait_queue_` (scheduler.cc:306) and `Terminate` drains it front
first (scheduler.cc:276-282), so the joiner list reads `[3, 2]`, the
joiners enter the ready queue as `[3, 2]`, and the preempt inside
`Terminate` hands control to fiber 3 — the SECOND joiner — leaving
`[2]` ready.  FIFO release would instead resume fiber 2 leaving `[3]`. -/
theorem join_fifo_release_cex :
    ((FiberInterface.Join 4 joinState0).bind (FiberInterface.Join 4)).map
        (fun s => ((s.fibers 4).wait_queue_,
          (FiberInterface.Terminate s).active,
          (FiberInterface.Terminate s).ready_queue)) =
      some ([3, 2], 3, [2]) ∧
    ¬ ((FiberInterface.Join 4 joinState0).bind (FiberInterface.Join 4)).map
        (fun s => ((FiberInterface.Terminate s).active,
          (FiberInterface.Terminate s).ready_queue)) =
      some (2, [3]) := by
  constructor
  · rfl
  · decide

/-- Claim C2, amended: joiners are released LIFO, not FIFO.  `join`
pushes the caller onto the front of the target's joiner list, and when
the target terminates the list is drained front first onto the back of
the ready queue — so fibers J1..Jn that joined T in that order are
moved to the ready queue in reverse join order Jn..J1, leaving T's
joiner list empty. -/
theorem join_terminate_lifo :
    (∀ (st : ThreadState) (target : FiberId),
      st.active ≠ target →
      (st.fibers st.active).scheduler_ = (st.fibers target).scheduler_ →
      (st.fibers target).terminated = false →
      (((FiberInterface.Join target st).getD st).fibers target).wait_queue_ =
        st.active :: (st.fibers target).wait_queue_) ∧
    (∀ st : ThreadState,
      FiberInterface.Terminate st =
        Scheduler.Preempt
          { st with
            ready_queue := st.ready_queue ++ (st.fibers st.active).wait_queue_
            terminate_queue := st.terminate_queue ++ [st.active]
            num_worker_fibers :=
              if (st.fibers st.active).type_ = FiberType.WORKER then
                st.num_worker_fibers - 1 else st.num_worker_fibers
            fibers := updateFiber st.fibers st.active
              { st.fibers st.active with terminated := true, wait_queue_ := [] } } ∧
      ((FiberInterface.Terminate st).fibers st.active).wait_queue_ = []) := by
  constructor
  · intro st target h1 h2 h3
    rw [join_blocking_eq st target h1 h2 h3]
    show ((Scheduler.Preempt _).fibers target).wait_queue_ = _
    rw [preempt_fibers_wait]
    simp [updateFiber]
  · intro st
    refine ⟨terminate_eq st, ?_⟩
    rw [terminate_eq, preempt_fibers_wait]
    simp [updateFiber]

/-- Witness for the amended C2 at `joinState0`: fiber 2's join lands it
at the front of fiber 4's joiner list, and a terminating fiber leaves
its own joiner list empty. -/
theorem join_terminate_lifo_witness :
    (((FiberInterface.Join 4 joinState0).getD joinState0).fibers 4).wait_queue_ =
      [2] ∧
    ((FiberInterface.Terminate joinState0).fibers 2).wait_queue_ = [] := by
  constructor
  · exact join_terminate_lifo.1 joinState0 4 (by decide) (by decide) (by decide)
  · exact (join_terminate_lifo.2 joinState0).2

/-- Claim C5: for the active fiber F with its terminated precondition
satisfied, `Terminate` sets F's terminated flag (and no core step ever
clears a set flag afterwards), appends F to the scheduler's terminated
queue, decrements the worker count exactly when F is a WORKER, wakes
every joiner by moving the whole joiner list into the ready queue
(emptying it), and ends in an unconditional `Preempt`. -/
theorem terminate_contract (st : ThreadState)
    (_h : (st.fibers st.active).terminated = false) :
    FiberInterface.Terminate st =
      Scheduler.Preempt
        { st with
          ready_queue := st.ready_queue ++ (st.fibers st.active).wait_queue_
          terminate_queue := st.terminate_queue ++ [st.active]
          num_worker_fibers :=
            if (st.fibers st.active).type_ = FiberType.WORKER then
              st.num_worker_fibers - 1 else st.num_worker_fibers
          fibers := updateFiber st.fibers st.active
            { st.fibers st.active with terminated := true, wait_queue_ := [] } } ∧
    ((FiberInterface.Terminate st).fibers st.active).terminated = true ∧
    ((FiberInterface.Terminate st).fibers st.active).wait_queue_ = [] ∧
    (FiberInterface.Terminate st).terminate_queue = st.terminate_queue ++ [st.active] ∧
    (∀ {st2 st3 : ThreadState}, Step st2 st3 → ∀ f : FiberId,
      (st2.fibers f).terminated = true → (st3.fibers f).terminated = true) := by
  refine ⟨terminate_eq st, ?_, ?_, ?_, fun hs f ht => step_terminated_mono hs f ht⟩
  · rw [terminate_eq, preempt_fibers_terminated]
    simp [updateFiber]
  · rw [terminate_eq, preempt_fibers_wait]
    simp [updateFiber]
  · rw [terminate_eq, (preempt_preserves _).2.1]

/-- Witness for C5: fiber 2 (a WORKER, not yet terminated) terminates
in `joinDoneState`; its flag is set, it is queued for reclamation, and
the worker count drops from 2 to 1. -/
theorem terminate_contract_witness :
    (joinDoneState.fibers joinDoneState.active).terminated = false ∧
    ((FiberInterface.Terminate joinDoneState).fibers 2).terminated = true ∧
    (FiberInterface.Terminate joinDoneState).terminate_queue = [2] ∧
    (FiberInterface.Terminate joinDoneState).num_worker_fibers = 1 := by
  have h := terminate_contract joinDoneState (by decide)
  exact ⟨by decide, h.2.1, h.2.2.2.1, by rw [h.1]; rfl⟩

/-- Claim C7: `DispatcherImpl::Run` distinguishes its two entry shapes
by the incoming continuation.  A populated continuation is the
destruction path: it is returned at once and the state is untouched.
An empty continuation is a normal entry: the installed custom dispatch
algorithm (or `DefaultDispatch` when none is installed) runs, the
dispatcher marks itself terminating, and control switches to the main
fiber. -/
theorem dispatcherRun_entry_shapes :
    (∀ (k : Continuation) (algo : Option (ThreadState → ThreadState))
        (st : ThreadState),
      DispatcherImpl.Run (some k) algo st = (some k, st)) ∧
    (∀ (algo : ThreadState → ThreadState) (st : ThreadState),
      DispatcherImpl.Run none (some algo) st =
        (none, FiberInterface.SwitchTo (algo st).main_cntx
          { algo st with
            fibers := updateFiber (algo st).fibers (algo st).dispatch_cntx
              { (algo st).fibers (algo st).dispatch_cntx with
                is_terminating_ := true } })) ∧
    (∀ st : ThreadState,
      DispatcherImpl.Run none none st =
        (none, FiberInterface.SwitchTo (Scheduler.DefaultDispatch st).main_cntx
          { Scheduler.DefaultDispatch st with
            fibers := updateFiber (Scheduler.DefaultDispatch st).fibers
              (Scheduler.DefaultDispatch st).dispatch_cntx
              { (Scheduler.DefaultDispatch st).fibers
                  (Scheduler.DefaultDispatch st).dispatch_cntx with
                is_terminating_ := true } })) ∧
    (∀ st : ThreadState,
      (DispatcherImpl.Run none none st).2.active = st.main_cntx ∧
      ((DispatcherImpl.Run none none st).2.fibers
        st.dispatch_cntx).is_terminating_ = true) := by
  refine ⟨fun k algo st => rfl, fun algo st => rfl, fun st => rfl, fun st => ⟨rfl, ?_⟩⟩
  show ((FiberInterface.SwitchTo _ _).fibers st.dispatch_cntx).is_terminating_ = true
  rw [switchTo_fibers_is_terminating]
  simp [updateFiber, Scheduler.DefaultDispatch, Scheduler.DestroyTerminated]

/-- Counterexample to claim C4's final clause ("resuming only after F
terminates") as originally stated.  In `mainJoinState` the MAIN fiber 0
joins the sleeping, unterminated WORKER fiber 5: the ready queue is
empty, so the join's `Preempt` switches to the dispatcher (fiber 1).
The dispatcher's normal entry runs the no-op `DefaultDispatch` and then
switches straight back to the main context (scheduler.cc:124-133): the
caller 0 is the active fiber again — its join has returned — while
fiber 5 is still unterminated and still holds fiber 0 on its joiner
list. -/
theorem join_main_resumed_early_cex :
    ((FiberInterface.Join 5 mainJoinState).map
      (fun s1 => ((DispatcherImpl.Run none none s1).2.active,
        ((DispatcherImpl.Run none none s1).2.fibers 5).terminated,
        ((DispatcherImpl.Run none none s1).2.fibers 5).wait_queue_)))
      = some (0, false, [0]) ∧
    mainJoinState.active = 0 ∧
    mainJoinState.main_cntx = 0 ∧
    (mainJoinState.fibers 5).terminated = false :=
  ⟨rfl, rfl, rfl, rfl⟩

/-- Claim C4, amended: `join` called on fiber F is a fatal precondition
violation (`CHECK`, modelled as `none`) when the caller is F itself or
when the caller's scheduler differs from F's; otherwise, if F is
already terminated the call returns immediately with the state
unchanged, and if not, the caller is pushed onto the front of F's
joiner list and the scheduler preempts — after which the caller is off
the ready queue and sleep set and is no longer active.  A caller other
than the main fiber then stays blocked on F's joiner list, never
becoming active, across any core steps (including the dispatcher's
exit switch) taken while F is still unterminated; the main fiber can
instead be resumed early by the dispatcher's exit switch to the main
context (see the counterexample above). -/
theorem join_contract :
    (∀ st : ThreadState, FiberInterface.Join st.active st = none) ∧
    (∀ (st : ThreadState) (target : FiberId), st.active ≠ target →
      (st.fibers st.active).scheduler_ ≠ (st.fibers target).scheduler_ →
      FiberInterface.Join target st = none) ∧
    (∀ (st : ThreadState) (target : FiberId), st.active ≠ target →
      (st.fibers st.active).scheduler_ = (st.fibers target).scheduler_ →
      (st.fibers target).terminated = true →
      FiberInterface.Join target st = some st) ∧
    (∀ (st : ThreadState) (target : FiberId), st.active ≠ target →
      (st.fibers st.active).scheduler_ = (st.fibers target).scheduler_ →
      (st.fibers target).terminated = false →
      FiberInterface.Join target st =
        some (Scheduler.Preempt
          { st with
            fibers := updateFiber st.fibers target
              { st.fibers target with
                wait_queue_ := st.active :: (st.fibers target).wait_queue_ } })) ∧
    (∀ (st st' : ThreadState) (target : FiberId),
      FiberInterface.Join target st = some st' →
      (st.fibers target).terminated = false →
      st.active ∉ st.ready_queue →
      st.active ∉ st.sleep_queue →
      st.active ≠ st.dispatch_cntx →
      st.active ≠ st.main_cntx →
      (st.fibers st.active).scheduler_ ≠ none →
      (∀ g, st.active ∉ (st.fibers g).wait_queue_) →
      JoinerBlocked st.active target st' ∧ st'.active ≠ st.active) ∧
    (∀ (st st' : ThreadState) (c F : FiberId),
      Relation.ReflTransGen Step st st' → JoinerBlocked c F st →
      (st'.fibers F).terminated = false → JoinerBlocked c F st') := by
  refine ⟨join_self, join_cross_sched, join_terminated_eq, join_blocking_eq,
    ?_, fun st st' c F hrt hb hF => steps_joinerBlocked hrt c F hb hF⟩
  intro st st' target hj hterm hr hs hd hmn hsched hw
  rcases join_some_inv st st' target hj with ⟨hne, ⟨ht', _⟩ | ⟨_, heq⟩⟩
  · rw [ht'] at hterm
    cases hterm
  · rw [heq]
    set st1 : ThreadState :=
      { st with
        fibers := updateFiber st.fibers target
          { st.fibers target with
            wait_queue_ := st.active :: (st.fibers target).wait_queue_ } }
      with hst1
    have h2' : st.active ∉ st1.ready_queue := hr
    have h5' : st.active ≠ st1.dispatch_cntx := hd
    obtain ⟨hm, hact⟩ := preempt_not_mem st1 st.active h2' h5'
    refine ⟨⟨?_, hm, ?_, hact, ?_, ?_, ?_, ?_⟩, hact⟩
    · rw [preempt_fibers_wait]
      simp only [hst1, updateFiber, if_pos rfl]
      exact List.mem_cons_self _ _
    · rw [preempt_sleep]
      exact hs
    · rw [preempt_dispatch]
      exact hd
    · rw [preempt_fibers_sched]
      simp only [hst1, updateFiber]
      split
      · next hx =>
        rw [hx] at hsched
        exact hsched
      · exact hsched
    · intro g hg
      rw [preempt_fibers_wait]
      simp only [hst1, updateFiber, if_neg hg]
      exact hw g
    · rw [preempt_main]
      exact hmn

/-- Witness for the amended C4: in `joinState0`, self-join is fatal,
joining the terminated fiber 4 of `joinDoneState` is a no-op, and the
non-main fiber 2's blocking join of fiber 4 produces `joinState1`, in
which fiber 2 is blocked on fiber 4's joiner list. -/
theorem join_contract_witness :
    FiberInterface.Join 2 joinState0 = none ∧
    FiberInterface.Join 4 joinDoneState = some joinDoneState ∧
    FiberInterface.Join 4 joinState0 = some joinState1 ∧
    JoinerBlocked 2 4 joinState1 := by
  refine ⟨?_, ?_, ?_, ?_⟩
  · exact join_contract.1 joinState0
  · exact join_contract.2.2.1 joinDoneState 4 (by decide) (by decide) (by decide)
  · rfl
  · exact (join_contract.2.2.2.2.1 joinState0 joinState1 4 rfl (by decide)
      (by decide) (by decide) (by decide) (by decide) (by decide)
      (fun g => List.not_mem_nil 2)).1
